import Mathlib

/-!
Verification development for the `vertex_gemini` channel of gpt-load
(`internal/channel/vertex_gemini_channel.go`).

The Go code is shallowly embedded: pure functions become Lean functions,
the token cache becomes explicit state passing, machine time becomes `Int`
Unix seconds, and external effects (the RSA/SHA-256 primitives of the Go
standard library and the HTTP client) become explicit function arguments.
Functions marked `Modelled from the spec:` stand for repository code that
is not part of the channel source file (the base channel, the error
parser, the Gemini list helpers); they follow the specification's words.
-/

namespace GptLoad

/-! ## Go string helpers -/

def ofChars (l : List Char) : String := ⟨l⟩

def strTake (s : String) (n : Nat) : String := ofChars (s.toList.take n)

def strDrop (s : String) (n : Nat) : String := ofChars (s.toList.drop n)

def listIndexOf (needle : List Char) : List Char → Option Nat
  | [] => if needle.isPrefixOf ([] : List Char) then some 0 else none
  | c :: t =>
    if needle.isPrefixOf (c :: t) then some 0
    else (listIndexOf needle t).map (· + 1)

/-- Go `strings.Index` (first occurrence, as a character offset). -/
def strIndex (s sub : String) : Option Nat := listIndexOf sub.toList s.toList

/-- Go `strings.Contains`. -/
def strContains (s sub : String) : Bool := (strIndex s sub).isSome

/-- Go `strings.HasSuffix`. -/
def hasSuffix (s suf : String) : Bool := suf.toList.isSuffixOf s.toList

/-- Go `strings.TrimRight(s, "/")`. -/
def trimRightSlashes (s : String) : String :=
  ofChars ((s.toList.reverse.dropWhile (fun c => c = '/')).reverse)

/-- Go `strings.TrimSuffix`. -/
def trimSuffix (s suf : String) : String :=
  if hasSuffix s suf then strTake s (s.length - suf.length) else s

def goIsSpace (c : Char) : Bool :=
  c = ' ' || c = '\t' || c = '\n' || c = '\r' || c = Char.ofNat 11 || c = Char.ofNat 12

/-- Go `strings.TrimSpace` (ASCII whitespace model). -/
def goTrimSpace (s : String) : String :=
  ofChars (((s.toList.dropWhile goIsSpace).reverse.dropWhile goIsSpace).reverse)

def splitOnChar (sep : Char) : List Char → List (List Char)
  | [] => [[]]
  | c :: t =>
    if c = sep then [] :: splitOnChar sep t
    else
      match splitOnChar sep t with
      | [] => [[c]]
      | h :: r => (c :: h) :: r

/-- Go `strings.Split(s, "/")`. -/
def goSplitSlash (s : String) : List String := (splitOnChar '/' s.toList).map ofChars

/-- Go `strings.Join(parts, "/")`. -/
def goJoinSlash (parts : List String) : String := String.intercalate "/" parts

/-- Go `strings.Split(s, ":")[0]`. -/
def headUntilColon (s : String) : String := ofChars (s.toList.takeWhile (fun c => c ≠ ':'))

def goListSet : List String → Nat → String → List String
  | [], _, _ => []
  | _ :: t, 0, v => v :: t
  | h :: t, Nat.succ n, v => h :: goListSet t n v

/-! ## JSON values and a parser modelling Go `encoding/json` syntax -/

/-- A JSON value. Numbers record the integer value and whether the literal
had plain integer syntax (Go's `Unmarshal` into `int64` only accepts the
latter). -/
inductive J where
  | null : J
  | bool : Bool → J
  | num : Int → Bool → J
  | str : String → J
  | arr : List J → J
  | obj : List (String × J) → J

def isWsChar (c : Char) : Bool := c = ' ' || c = '\t' || c = '\n' || c = '\r'

def skipWs : List Char → List Char
  | [] => []
  | c :: t => if isWsChar c then skipWs t else c :: t

def escSimple (c : Char) : Option Char :=
  if c = '"' then some '"'
  else if c = '\\' then some '\\'
  else if c = '/' then some '/'
  else if c = 'b' then some (Char.ofNat 8)
  else if c = 'f' then some (Char.ofNat 12)
  else if c = 'n' then some '\n'
  else if c = 'r' then some '\r'
  else if c = 't' then some '\t'
  else none

def hexVal (c : Char) : Option Nat :=
  if '0' ≤ c ∧ c ≤ '9' then some (c.toNat - 48)
  else if 'a' ≤ c ∧ c ≤ 'f' then some (c.toNat - 87)
  else if 'A' ≤ c ∧ c ≤ 'F' then some (c.toNat - 55)
  else none

def parseStrChars : List Char → Option (List Char × List Char)
  | [] => none
  | '"' :: rest => some ([], rest)
  | '\\' :: 'u' :: a :: b :: c :: d :: rest =>
    match hexVal a, hexVal b, hexVal c, hexVal d with
    | some ha, some hb, some hc, some hd =>
      match parseStrChars rest with
      | some (cs, r) => some (Char.ofNat (ha * 4096 + hb * 256 + hc * 16 + hd) :: cs, r)
      | none => none
    | _, _, _, _ => none
  | '\\' :: e :: rest =>
    match escSimple e with
    | some ec =>
      match parseStrChars rest with
      | some (cs, r) => some (ec :: cs, r)
      | none => none
    | none => none
  | c :: rest =>
    if c.toNat < 32 then none
    else
      match parseStrChars rest with
      | some (cs, r) => some (c :: cs, r)
      | none => none

def spanDigits : List Char → (List Char × List Char)
  | [] => ([], [])
  | c :: t =>
    if c.isDigit then
      match spanDigits t with
      | (d, r) => (c :: d, r)
    else ([], c :: t)

def digitsToNatAux (acc : Nat) : List Char → Nat
  | [] => acc
  | c :: t => digitsToNatAux (acc * 10 + (c.toNat - 48)) t

def parseExpDigits (n : Int) (cs : List Char) : Option (J × List Char) :=
  let cs1 := match cs with
    | '+' :: t => t
    | '-' :: t => t
    | _ => cs
  match spanDigits cs1 with
  | (ed, cs2) => if ed = [] then none else some (J.num n false, cs2)

def parseExpPart (n : Int) (intLit : Bool) (cs : List Char) : Option (J × List Char) :=
  match cs with
  | 'e' :: t => parseExpDigits n t
  | 'E' :: t => parseExpDigits n t
  | _ => some (J.num n intLit, cs)

def parseNum (cs : List Char) : Option (J × List Char) :=
  let p := match cs with
    | '-' :: t => (true, t)
    | _ => (false, cs)
  match spanDigits p.2 with
  | (ds, cs2) =>
    if ds = [] then none
    else if ds.length > 1 ∧ ds.headD '0' = '0' then none
    else
      let n0 : Int := Int.ofNat (digitsToNatAux 0 ds)
      let n : Int := if p.1 then -n0 else n0
      match cs2 with
      | '.' :: t =>
        match spanDigits t with
        | (fd, cs3) => if fd = [] then none else parseExpPart n false cs3
      | _ => parseExpPart n true cs2

mutual

def parseJVal : Nat → List Char → Option (J × List Char)
  | 0, _ => none
  | Nat.succ fuel, cs0 =>
    match skipWs cs0 with
    | 'n' :: 'u' :: 'l' :: 'l' :: rest => some (J.null, rest)
    | 't' :: 'r' :: 'u' :: 'e' :: rest => some (J.bool true, rest)
    | 'f' :: 'a' :: 'l' :: 's' :: 'e' :: rest => some (J.bool false, rest)
    | '"' :: rest =>
      match parseStrChars rest with
      | some (cs, r) => some (J.str (ofChars cs), r)
      | none => none
    | '[' :: rest => parseArrItems fuel rest
    | '\x7b' :: rest => parseObjItems fuel rest
    | c :: rest =>
      if c = '-' ∨ c.isDigit then parseNum (c :: rest) else none
    | [] => none

def parseArrItems : Nat → List Char → Option (J × List Char)
  | 0, _ => none
  | Nat.succ fuel, cs =>
    match skipWs cs with
    | ']' :: rest => some (J.arr [], rest)
    | cs2 =>
      match parseJVal fuel cs2 with
      | none => none
      | some (v, r) => parseArrTail fuel v r

def parseArrTail : Nat → J → List Char → Option (J × List Char)
  | 0, _, _ => none
  | Nat.succ fuel, v, r =>
    match skipWs r with
    | ']' :: rest => some (J.arr [v], rest)
    | ',' :: rest =>
      match parseJVal fuel rest with
      | none => none
      | some (v2, r2) =>
        match parseArrTail fuel v2 r2 with
        | some (J.arr vs, r3) => some (J.arr (v :: vs), r3)
        | _ => none
    | _ => none

def parseObjItems : Nat → List Char → Option (J × List Char)
  | 0, _ => none
  | Nat.succ fuel, cs =>
    match skipWs cs with
    | c :: rest =>
      if c = '\x7d' then some (J.obj [], rest)
      else if c = '"' then
        match parseObjMember fuel rest with
        | none => none
        | some (kv, r) => parseObjTail fuel kv r
      else none
    | [] => none

def parseObjMember : Nat → List Char → Option ((String × J) × List Char)
  | 0, _ => none
  | Nat.succ fuel, cs =>
    match parseStrChars cs with
    | none => none
    | some (kcs, r) =>
      match skipWs r with
      | ':' :: r2 =>
        match parseJVal fuel r2 with
        | none => none
        | some (v, r3) => some ((ofChars kcs, v), r3)
      | _ => none

def parseObjTail : Nat → (String × J) → List Char → Option (J × List Char)
  | 0, _, _ => none
  | Nat.succ fuel, kv, r =>
    match skipWs r with
    | c :: rest =>
      if c = '\x7d' then some (J.obj [kv], rest)
      else if c = ',' then
        match skipWs rest with
        | '"' :: rest2 =>
          match parseObjMember fuel rest2 with
          | none => none
          | some (kv2, r2) =>
            match parseObjTail fuel kv2 r2 with
            | some (J.obj kvs, r3) => some (J.obj (kv :: kvs), r3)
            | _ => none
        | _ => none
      else none
    | [] => none

end

/-- Parse a whole string as one JSON document (Go `json.Unmarshal` syntax:
trailing non-whitespace input is an error). -/
def jsonDecode (s : String) : Option J :=
  match parseJVal (4 * s.length + 16) s.toList with
  | some (v, rest) => if (skipWs rest).isEmpty then some v else none
  | none => none

/-! ## Go `json.Unmarshal` into the structs used by the channel

Unmarshalling into a struct accepts a JSON object (fields matched by tag,
ASCII case-insensitively, later duplicates overwriting earlier ones,
unknown keys ignored, `null` leaving the field untouched, a type mismatch
failing) or a top-level `null` (which leaves the struct at its zero
value). -/

def asciiLower (c : Char) : Char :=
  if 'A' ≤ c ∧ c ≤ 'Z' then Char.ofNat (c.toNat + 32) else c

def strFoldEq (a b : String) : Bool :=
  (a.toList.map asciiLower) == (b.toList.map asciiLower)

def setStrField (cur : String) (v : J) : Option String :=
  match v with
  | J.str s => some s
  | J.null => some cur
  | _ => none

def setBoolField (cur : Bool) (v : J) : Option Bool :=
  match v with
  | J.bool b => some b
  | J.null => some cur
  | _ => none

def setIntField (cur : Int) (v : J) : Option Int :=
  match v with
  | J.num i true => some i
  | J.null => some cur
  | _ => none

/-- The `gcpServiceAccount` struct of the channel source. -/
structure GCPServiceAccount where
  projectID : String
  privateKeyID : String
  privateKey : String
  clientEmail : String
  tokenURI : String
deriving DecidableEq

def zeroSA : GCPServiceAccount := ⟨"", "", "", "", ""⟩

def setSAField (sa : GCPServiceAccount) (k : String) (v : J) : Option GCPServiceAccount :=
  if strFoldEq k "project_id" then
    (setStrField sa.projectID v).map
      (fun s => ⟨s, sa.privateKeyID, sa.privateKey, sa.clientEmail, sa.tokenURI⟩)
  else if strFoldEq k "private_key_id" then
    (setStrField sa.privateKeyID v).map
      (fun s => ⟨sa.projectID, s, sa.privateKey, sa.clientEmail, sa.tokenURI⟩)
  else if strFoldEq k "private_key" then
    (setStrField sa.privateKey v).map
      (fun s => ⟨sa.projectID, sa.privateKeyID, s, sa.clientEmail, sa.tokenURI⟩)
  else if strFoldEq k "client_email" then
    (setStrField sa.clientEmail v).map
      (fun s => ⟨sa.projectID, sa.privateKeyID, sa.privateKey, s, sa.tokenURI⟩)
  else if strFoldEq k "token_uri" then
    (setStrField sa.tokenURI v).map
      (fun s => ⟨sa.projectID, sa.privateKeyID, sa.privateKey, sa.clientEmail, s⟩)
  else some sa

def decodeSAFields : GCPServiceAccount → List (String × J) → Option GCPServiceAccount
  | sa, [] => some sa
  | sa, (k, v) :: rest =>
    match setSAField sa k v with
    | some sa2 => decodeSAFields sa2 rest
    | none => none

/-- Go `json.Unmarshal` of a `gcpServiceAccount`. -/
def unmarshalSA (s : String) : Option GCPServiceAccount :=
  match jsonDecode s with
  | some (J.obj fs) => decodeSAFields zeroSA fs
  | some J.null => some zeroSA
  | _ => none

def decodeStreamFields : Bool → List (String × J) → Option Bool
  | b, [] => some b
  | b, (k, v) :: rest =>
    if strFoldEq k "stream" then
      match setBoolField b v with
      | some b2 => decodeStreamFields b2 rest
      | none => none
    else decodeStreamFields b rest

/-- Go `json.Unmarshal` of the `streamPayload` struct of `IsStreamRequest`. -/
def unmarshalStream (s : String) : Option Bool :=
  match jsonDecode s with
  | some (J.obj fs) => decodeStreamFields false fs
  | some J.null => some false
  | _ => none

def decodeModelFields : String → List (String × J) → Option String
  | m, [] => some m
  | m, (k, v) :: rest =>
    if strFoldEq k "model" then
      match setStrField m v with
      | some m2 => decodeModelFields m2 rest
      | none => none
    else decodeModelFields m rest

/-- Go `json.Unmarshal` of the `modelPayload` struct of `ExtractModel`. -/
def unmarshalModel (s : String) : Option String :=
  match jsonDecode s with
  | some (J.obj fs) => decodeModelFields "" fs
  | some J.null => some ""
  | _ => none

/-- The anonymous token-response struct of `mintAccessTokenFromServiceAccount`. -/
structure TokenResp where
  accessToken : String
  expiresIn : Int
deriving DecidableEq

def decodeTokenFields : TokenResp → List (String × J) → Option TokenResp
  | tr, [] => some tr
  | tr, (k, v) :: rest =>
    if strFoldEq k "access_token" then
      match setStrField tr.accessToken v with
      | some s => decodeTokenFields ⟨s, tr.expiresIn⟩ rest
      | none => none
    else if strFoldEq k "expires_in" then
      match setIntField tr.expiresIn v with
      | some i => decodeTokenFields ⟨tr.accessToken, i⟩ rest
      | none => none
    else decodeTokenFields tr rest

/-- Go `json.Unmarshal` of the token-exchange response body. -/
def unmarshalTokenResp (s : String) : Option TokenResp :=
  match jsonDecode s with
  | some (J.obj fs) => decodeTokenFields ⟨"", 0⟩ fs
  | some J.null => some ⟨"", 0⟩
  | _ => none

/-! ## Go maps as association lists (`map[string]any`, `map[string]string`) -/

def mapGet : List (String × J) → String → Option J
  | [], _ => none
  | (a, v) :: t, k => if a = k then some v else mapGet t k

def mapSet : List (String × J) → String → J → List (String × J)
  | [], k, v => [(k, v)]
  | (a, w) :: t, k, v => if a = k then (a, v) :: t else (a, w) :: mapSet t k v

def mapDel : List (String × J) → String → List (String × J)
  | [], _ => []
  | (a, w) :: t, k => if a = k then mapDel t k else (a, w) :: mapDel t k

/-- Go `json.Unmarshal` of an object into `map[string]any`: later duplicate
keys overwrite earlier ones. -/
def objToGoMap (fs : List (String × J)) : List (String × J) :=
  fs.foldl (fun m kv => mapSet m kv.1 kv.2) []

/-- Go `json.Unmarshal` into `map[string]any` (a `null` document yields the
nil map, which behaves as the empty map for the lookups performed here). -/
def unmarshalGoMap (s : String) : Option (List (String × J)) :=
  match jsonDecode s with
  | some (J.obj fs) => some (objToGoMap fs)
  | some J.null => some []
  | _ => none

/-- Go `map[string]string` lookup (`m[k]` with the `ok` flag). -/
def lookupStr : List (String × String) → String → Option String
  | [], _ => none
  | (a, b) :: t, k => if a = k then some b else lookupStr t k

/-! ## Byte-level helpers: UTF-8, base64url, JSON string escaping -/

def utf8Bytes (c : Char) : List Nat :=
  let n := c.toNat
  if n < 128 then [n]
  else if n < 2048 then [192 + n / 64, 128 + n % 64]
  else if n < 65536 then [224 + n / 4096, 128 + (n / 64) % 64, 128 + n % 64]
  else [240 + n / 262144, 128 + (n / 4096) % 64, 128 + (n / 64) % 64, 128 + n % 64]

def strBytes (s : String) : List Nat := (s.toList.map utf8Bytes).flatten

def b64Alphabet : List Char :=
  "ABCDEFGHIJKLMNOPQRSTUVWXYZabcdefghijklmnopqrstuvwxyz0123456789-_".toList

def b64Char (n : Nat) : Char := b64Alphabet.getD n 'A'

def b64urlChunks : List Nat → List Char
  | [] => []
  | [a] => [b64Char (a / 4), b64Char ((a % 4) * 16)]
  | [a, b] => [b64Char (a / 4), b64Char ((a % 4) * 16 + b / 16), b64Char ((b % 16) * 4)]
  | a :: b :: c :: rest =>
    b64Char (a / 4) :: b64Char ((a % 4) * 16 + b / 16) ::
    b64Char ((b % 16) * 4 + c / 64) :: b64Char (c % 64) :: b64urlChunks rest

/-- Go `base64.RawURLEncoding.EncodeToString` (base64url, no padding). -/
def b64url (bytes : List Nat) : String := ofChars (b64urlChunks bytes)

def hexDigitChar (n : Nat) : Char :=
  "0123456789abcdef".toList.getD n '0'

/-- Go `json.Marshal` string escaping (with its default HTML escaping). -/
def jsonEscapeChar (c : Char) : List Char :=
  if c = '"' then ['\\', '"']
  else if c = '\\' then ['\\', '\\']
  else if c = '\n' then ['\\', 'n']
  else if c = '\r' then ['\\', 'r']
  else if c = '\t' then ['\\', 't']
  else if c.toNat < 32 then
    ['\\', 'u', '0', '0', hexDigitChar (c.toNat / 16), hexDigitChar (c.toNat % 16)]
  else if c = '<' then "\\u003c".toList
  else if c = '>' then "\\u003e".toList
  else if c = '&' then "\\u0026".toList
  else if c.toNat = 8232 then "\\u2028".toList
  else if c.toNat = 8233 then "\\u2029".toList
  else [c]

def jsonEscape (s : String) : String := ofChars ((s.toList.map jsonEscapeChar).flatten)

mutual

def encodeJ : J → String
  | J.null => "null"
  | J.bool true => "true"
  | J.bool false => "false"
  | J.num i _ => toString i
  | J.str s => "\"" ++ jsonEscape s ++ "\""
  | J.arr xs => "[" ++ encodeJList xs ++ "]"
  | J.obj fs => "\x7b" ++ encodeJObj fs ++ "\x7d"

def encodeJList : List J → String
  | [] => ""
  | [x] => encodeJ x
  | x :: y :: t => encodeJ x ++ "," ++ encodeJList (y :: t)

def encodeJObj : List (String × J) → String
  | [] => ""
  | [(k, v)] => "\"" ++ jsonEscape k ++ "\":" ++ encodeJ v
  | (k, v) :: y :: t => "\"" ++ jsonEscape k ++ "\":" ++ encodeJ v ++ "," ++ encodeJObj (y :: t)

end

def encodeMap (m : List (String × J)) : String := encodeJ (J.obj m)

/-! ## URLs -/

/-- The parts of a Go `*url.URL` that the channel reads. -/
structure GoURL where
  scheme : String
  host : String
  path : String

/-- Go `URL.Hostname()` (host with any port stripped). -/
def hostname (u : GoURL) : String := ofChars (u.host.toList.takeWhile (fun c => c ≠ ':'))

/-! ## Source-translated channel functions -/

def vertexDefaultTokenURI : String := "https://oauth2.googleapis.com/token"

def vertexOAuthScope : String := "https://www.googleapis.com/auth/cloud-platform"

/-- `parseGCPServiceAccount` of the channel source. -/
def parseGCPServiceAccount (keyValue : String) : Except String GCPServiceAccount :=
  let trimmed := goTrimSpace keyValue
  if trimmed = "" then Except.error "empty key value"
  else
    match unmarshalSA trimmed with
    | none => Except.error "vertex_gemini expects a GCP service account JSON as key"
    | some sa =>
      if sa.clientEmail = "" ∨ sa.privateKey = "" then
        Except.error "invalid service account json: missing client_email/private_key"
      else Except.ok sa

/-- The loop of `ExtractModel` and `applyNativeFormatRedirect`: the first
index `i` with `parts[i] = "models"` and `i+1 < len(parts)`. -/
def findModelsAux (i : Nat) : List String → Option Nat
  | [] => none
  | p :: rest =>
    if p = "models" ∧ rest ≠ [] then some i else findModelsAux (i + 1) rest

/-- `ExtractModel` of the channel source (path segment first, body fallback). -/
def extractModel (path body : String) : String :=
  let parts := goSplitSlash path
  match findModelsAux 0 parts with
  | some i => headUntilColon (parts.getD (i + 1) "")
  | none =>
    match unmarshalModel body with
    | some m => if m ≠ "" then m else ""
    | none => ""

/-- `IsStreamRequest` of the channel source. -/
def isStreamRequest (path accept streamQ body : String) : Bool :=
  if hasSuffix path ":streamGenerateContent" then true
  else if strContains accept "text/event-stream" then true
  else if streamQ = "true" then true
  else
    match unmarshalStream body with
    | some b => b
    | none => false

/-- The loop of `extractVertexLocation`/`extractVertexProjectID`: the first
nonempty segment following a segment equal to `name`. -/
def findSegValue (name : String) : List String → Option String
  | [] => none
  | p :: rest =>
    match rest with
    | [] => none
    | v :: _ =>
      if p = name ∧ v ≠ "" then some v else findSegValue name rest

/-- `extractVertexLocation` of the channel source. -/
def extractVertexLocation (u : GoURL) : String :=
  match findSegValue "locations" (goSplitSlash u.path) with
  | some loc => loc
  | none =>
    let host := hostname u
    if host = "" then ""
    else if host = "aiplatform.googleapis.com" then "global"
    else if hasSuffix host "-aiplatform.googleapis.com" then
      let loc := trimSuffix host "-aiplatform.googleapis.com"
      if loc ≠ "" then loc else ""
    else ""

/-- `extractVertexProjectID` of the channel source. -/
def extractVertexProjectID (u : GoURL) : String :=
  match findSegValue "projects" (goSplitSlash u.path) with
  | some p => p
  | none => ""

/-- `buildVertexModelMethodURL` of the channel source (the `nil` upstream
check lives at the caller, which passes an `Option GoURL`). -/
def buildVertexModelMethodURL (u : GoURL) (projectID location model method : String) :
    Except String String :=
  if projectID = "" ∨ location = "" ∨ model = "" ∨ method = "" then
    Except.error "missing required vertex url parts"
  else
    let vertexPath := "/v1/projects/" ++ projectID ++ "/locations/" ++ location ++
      "/publishers/google/models/" ++ model ++ ":" ++ method
    let basePath0 := trimRightSlashes u.path
    let basePath :=
      match strIndex basePath0 "/v1/projects/" with
      | some idx => strTake basePath0 idx
      | none => basePath0
    Except.ok (u.scheme ++ "://" ++ u.host ++ trimRightSlashes basePath ++ vertexPath)

def geminiPfxV1Beta : String := "/v1beta/models"

def geminiPfxV1 : String := "/v1/models"

/-- The prefix search of `rewriteGeminiNativePathToVertex`: the `/v1beta/models`
occurrence is looked for first, then `/v1/models`. -/
def findGeminiModelsPfx (path : String) : Option (Nat × String) :=
  match strIndex path geminiPfxV1Beta with
  | some idx => some (idx, geminiPfxV1Beta)
  | none =>
    match strIndex path geminiPfxV1 with
    | some idx => some (idx, geminiPfxV1)
    | none => none

/-- `vertexModelsReplacement` of the channel source (`none` is Go's
`("", false)`). -/
def vertexModelsReplacement (beforePart : String) (u : GoURL) (sa : GCPServiceAccount) :
    Option String :=
  if strContains beforePart "/publishers/google/models" then some ""
  else if strContains beforePart "/publishers/google" then
    (if hasSuffix (trimRightSlashes beforePart) "/models" then some "" else some "/models")
  else if strContains beforePart "/projects/" ∧ strContains beforePart "/locations/" then
    some "/publishers/google/models"
  else if sa.projectID = "" then none
  else
    let location := extractVertexLocation u
    if location = "" then none
    else some ("/v1/projects/" ++ sa.projectID ++ "/locations/" ++ location ++
      "/publishers/google/models")

/-- `rewriteGeminiNativePathToVertex` of the channel source. -/
def rewriteGeminiNativePathToVertex (u : GoURL) (sa : GCPServiceAccount) : GoURL :=
  match findGeminiModelsPfx u.path with
  | none => u
  | some (idx, matched) =>
    let beforePart := strTake u.path idx
    let afterPart := strDrop u.path (idx + matched.length)
    match vertexModelsReplacement beforePart u sa with
    | none => u
    | some repl => ⟨u.scheme, u.host, beforePart ++ repl ++ afterPart⟩

/-! ## Model redirect -/

/-- Outcome of a redirect: the error (if any) and the request's path and
body after the call (the Go code mutates `req.URL.Path` in place and
returns the body bytes). -/
structure RedirectOutcome where
  err : Option String
  path : String
  body : String

/-- Modelled from the spec: `BaseChannel.ApplyModelRedirect` (the base
channel source is not under `src/`). The body-based redirect of §4.2:
a located body model present in the map is rewritten in the JSON body; a
model absent from the map fails in strict mode and passes through
otherwise. -/
def baseApplyModelRedirect (redirectMap : List (String × String)) (strict : Bool)
    (path body : String) : RedirectOutcome :=
  match unmarshalGoMap body with
  | some m =>
    match mapGet m "model" with
    | some (J.str name) =>
      match lookupStr redirectMap name with
      | some target => ⟨none, path, encodeMap (mapSet m "model" (J.str target))⟩
      | none =>
        if strict then
          ⟨some ("model " ++ name ++ " is not configured in redirect rules"), path, body⟩
        else ⟨none, path, body⟩
    | _ =>
      if strict then ⟨some "model is not configured in redirect rules", path, body⟩
      else ⟨none, path, body⟩
  | none => ⟨none, path, body⟩

/-- The method-suffix kept by the redirect: `modelPart[colonIndex:]`, empty
when the part has no colon. -/
def colonSuffix (modelPart : String) : String :=
  match strIndex modelPart ":" with
  | some ci => strDrop modelPart ci
  | none => ""

/-- `applyNativeFormatRedirect` of the channel source. -/
def applyNativeFormatRedirect (redirectMap : List (String × String)) (strict : Bool)
    (path body : String) : RedirectOutcome :=
  match findModelsAux 0 (goSplitSlash path) with
  | none => ⟨none, path, body⟩
  | some i =>
    match lookupStr redirectMap (headUntilColon ((goSplitSlash path).getD (i + 1) "")) with
    | some target =>
      ⟨none, goJoinSlash (goListSet (goSplitSlash path) (i + 1)
        (target ++ colonSuffix ((goSplitSlash path).getD (i + 1) ""))), body⟩
    | none =>
      if strict then
        ⟨some ("model " ++ headUntilColon ((goSplitSlash path).getD (i + 1) "") ++
          " is not configured in redirect rules"), path, body⟩
      else ⟨none, path, body⟩

/-- `ApplyModelRedirect` of the channel source. -/
def applyModelRedirect (redirectMap : List (String × String)) (strict : Bool)
    (path body : String) : RedirectOutcome :=
  if redirectMap = [] then ⟨none, path, body⟩
  else if strContains path "/openai/" then baseApplyModelRedirect redirectMap strict path body
  else applyNativeFormatRedirect redirectMap strict path body

/-! ## Model-list transformation -/

/-- Modelled from the spec: `isFirstPage` (defined with the Gemini channel,
not under `src/`) — a request is a first page exactly when it carries no
inbound page-token query parameter. -/
def isFirstPage (pageTokenQuery : String) : Bool := pageTokenQuery = ""

/-- Modelled from the spec: `buildConfiguredGeminiModels` (defined with the
Gemini channel, not under `src/`) — Gemini-shaped entries for exactly the
configured target models of the redirect map. -/
def buildConfiguredGeminiModels (redirectMap : List (String × String)) : List J :=
  ((redirectMap.map (fun p => p.2)).dedup).map
    (fun t => J.obj [("name", J.str ("models/" ++ t))])

def geminiModelName (j : J) : Option String :=
  match j with
  | J.obj fs =>
    match mapGet (objToGoMap fs) "name" with
    | some (J.str s) => some s
    | _ => none
  | _ => none

/-- Modelled from the spec: `mergeGeminiModelLists` (defined with the Gemini
channel, not under `src/`) — the union of the upstream and configured
models, de-duplicated by name with upstream entries taking precedence. -/
def mergeGeminiModelLists (upstream configured : List J) : List J :=
  upstream ++ configured.filter (fun c =>
    match geminiModelName c with
    | some n => ¬ upstream.any (fun u => geminiModelName u = some n)
    | none => true)

/-- `transformGeminiNativeFormat` of the channel source. -/
def transformGeminiNativeFormat (pageTokenQuery : String) (response : List (String × J))
    (modelsJ : J) (redirectMap : List (String × String)) (strict : Bool) :
    List (String × J) :=
  match modelsJ with
  | J.arr upstreamModels =>
    let configuredModels := buildConfiguredGeminiModels redirectMap
    if strict then mapDel (mapSet response "models" (J.arr configuredModels)) "nextPageToken"
    else if isFirstPage pageTokenQuery then
      mapSet response "models" (J.arr (mergeGeminiModelLists upstreamModels configuredModels))
    else mapSet response "models" (J.arr upstreamModels)
  | _ => response

def dataModelID (j : J) : Option String :=
  match j with
  | J.obj fs =>
    match mapGet (objToGoMap fs) "id" with
    | some (J.str s) => some s
    | _ => none
  | _ => none

/-- Modelled from the spec: `BaseChannel.TransformModelList` (the base
channel source is not under `src/`) — the `data`-shaped transform of §4.7:
strict mode replaces the array with exactly the configured target models,
non-strict mode unions upstream and configured entries, de-duplicated with
upstream precedence. -/
def baseTransformModelList (response : List (String × J))
    (redirectMap : List (String × String)) (strict : Bool) : List (String × J) :=
  let configured := ((redirectMap.map (fun p => p.2)).dedup).map
    (fun t => J.obj [("id", J.str t)])
  match mapGet response "data" with
  | some (J.arr upstream) =>
    if strict then mapSet response "data" (J.arr configured)
    else
      mapSet response "data" (J.arr (upstream ++ configured.filter (fun c =>
        match dataModelID c with
        | some n => ¬ upstream.any (fun u => dataModelID u = some n)
        | none => true)))
  | _ => response

/-- `TransformModelList` of the channel source. -/
def transformModelList (pageTokenQuery body : String) (redirectMap : List (String × String))
    (strict : Bool) : Except String (List (String × J)) :=
  match unmarshalGoMap body with
  | none => Except.error "failed to parse model list response"
  | some response =>
    match mapGet response "models" with
    | some mj =>
      Except.ok (transformGeminiNativeFormat pageTokenQuery response mj redirectMap strict)
    | none =>
      match mapGet response "data" with
      | some _ => Except.ok (baseTransformModelList response redirectMap strict)
      | none => Except.ok response

/-- Modelled from the spec: the proxy's model-list response handling (not
under `src/`) falls back to the unmodified upstream body when the
transform cannot parse it, the failure being only logged. -/
def handleModelListResponse (pageTokenQuery body : String)
    (redirectMap : List (String × String)) (strict : Bool) : String :=
  match transformModelList pageTokenQuery body redirectMap strict with
  | Except.error _ => body
  | Except.ok m => encodeMap m

/-! ## Token minting

The cryptographic primitives of the Go standard library (`pem.Decode`,
`x509.ParsePKCS8PrivateKey`, `x509.ParsePKCS1PrivateKey`, SHA-256,
`rsa.SignPKCS1v15`) and the HTTP client are external effects; they are
passed in explicitly, with a private key as an abstract handle. -/

/-- Result of `x509.ParsePKCS8PrivateKey`: an RSA key handle or a key of
another algorithm. -/
inductive PKCS8Key where
  | rsa : Nat → PKCS8Key
  | other : PKCS8Key

structure CryptoPrims where
  pemDecode : String → Option (List Nat)
  parsePKCS8 : List Nat → Except String PKCS8Key
  parsePKCS1 : List Nat → Except String Nat
  sha256 : List Nat → List Nat
  rsaSignPKCS1v15 : Nat → List Nat → Except String (List Nat)

/-- `parseRSAPrivateKeyFromPEM` of the channel source. -/
def parseRSAPrivateKeyFromPEM (cp : CryptoPrims) (pemStr : String) : Except String Nat :=
  match cp.pemDecode pemStr with
  | none => Except.error "invalid private key pem"
  | some blockBytes =>
    match cp.parsePKCS8 blockBytes with
    | Except.ok (PKCS8Key.rsa k) => Except.ok k
    | Except.ok PKCS8Key.other => Except.error "private key is not rsa"
    | Except.error _ =>
      match cp.parsePKCS1 blockBytes with
      | Except.ok k => Except.ok k
      | Except.error _ => Except.error "failed to parse rsa private key"

/-- `rs256Sign` of the channel source. -/
def rs256Sign (cp : CryptoPrims) (unsigned privateKeyPEM : String) : Except String String :=
  match parseRSAPrivateKeyFromPEM cp privateKeyPEM with
  | Except.error e => Except.error e
  | Except.ok priv =>
    match cp.rsaSignPKCS1v15 priv (cp.sha256 (strBytes unsigned)) with
    | Except.error e => Except.error ("failed to sign jwt: " ++ e)
    | Except.ok sig => Except.ok (b64url sig)

/-- Modelled from the spec: `app_errors.ParseUpstreamError` (the errors
package is not under `src/`) — the structured error message of the body
when it parses as error JSON, the raw body otherwise. -/
def parseUpstreamError (body : String) : String :=
  match jsonDecode body with
  | some (J.obj fs) =>
    match mapGet (objToGoMap fs) "error" with
    | some (J.obj efs) =>
      match mapGet (objToGoMap efs) "message" with
      | some (J.str m) => m
      | _ => body
    | _ => body
  | _ => body

/-- `tokenURI := sa.TokenURI; if empty, the standard Google endpoint`
(lines 405-408 of the channel source). -/
def effectiveTokenURI (sa : GCPServiceAccount) : String :=
  if sa.tokenURI = "" then vertexDefaultTokenURI else sa.tokenURI

/-- Go `json.Marshal` of the `jwtHeader` struct (`kid` has `omitempty`). -/
def jwtHeaderJSON (sa : GCPServiceAccount) : String :=
  "\x7b\"alg\":\"RS256\",\"typ\":\"JWT\"" ++
    (if sa.privateKeyID = "" then "" else ",\"kid\":\"" ++ jsonEscape sa.privateKeyID ++ "\"") ++
    "\x7d"

/-- Go `json.Marshal` of the `jwtClaims` struct. -/
def jwtClaimsJSON (sa : GCPServiceAccount) (now : Int) : String :=
  "\x7b\"iss\":\"" ++ jsonEscape sa.clientEmail ++ "\",\"scope\":\"" ++
    jsonEscape vertexOAuthScope ++ "\",\"aud\":\"" ++ jsonEscape (effectiveTokenURI sa) ++
    "\",\"iat\":" ++ toString now ++ ",\"exp\":" ++ toString (now + 3600) ++ "\x7d"

/-- The unsigned part of the JWT assertion: base64url header `.` base64url
claims. -/
def jwtUnsigned (sa : GCPServiceAccount) (now : Int) : String :=
  b64url (strBytes (jwtHeaderJSON sa)) ++ "." ++ b64url (strBytes (jwtClaimsJSON sa now))

/-- The outbound token-exchange request: a POST of form fields
`grant_type` and `assertion` to the token endpoint. -/
structure HTTPForm where
  url : String
  grantType : String
  assertion : String

/-- Outcome of one HTTP round trip: a transport failure or a status with a
body. -/
inductive HTTPResult where
  | failure : String → HTTPResult
  | response : Nat → String → HTTPResult

/-- Result of one mint attempt, with the number of network calls made. -/
structure MintResult where
  result : Except String (String × Int)
  calls : Nat

/-- `mintAccessTokenFromServiceAccount` of the channel source. On success
the token's absolute expiry is `now + expires_in`, `expires_in` defaulting
to 3600 when absent or non-positive. -/
def mintAccessTokenFromServiceAccount (cp : CryptoPrims) (exchange : HTTPForm → HTTPResult)
    (now : Int) (sa : GCPServiceAccount) : MintResult :=
  if sa.clientEmail = "" ∨ sa.privateKey = "" then
    ⟨Except.error "invalid service account json: missing client_email/private_key", 0⟩
  else
    match rs256Sign cp (jwtUnsigned sa now) sa.privateKey with
    | Except.error e => ⟨Except.error e, 0⟩
    | Except.ok sigB64 =>
      match exchange ⟨effectiveTokenURI sa, "urn:ietf:params:oauth:grant-type:jwt-bearer",
          jwtUnsigned sa now ++ "." ++ sigB64⟩ with
      | HTTPResult.failure msg => ⟨Except.error ("failed to exchange access token: " ++ msg), 1⟩
      | HTTPResult.response st body =>
        if st < 200 ∨ 300 ≤ st then
          ⟨Except.error ("[status " ++ toString st ++ "] " ++ parseUpstreamError body), 1⟩
        else
          match unmarshalTokenResp body with
          | none => ⟨Except.error "failed to parse token response", 1⟩
          | some tr =>
            if tr.accessToken = "" then ⟨Except.error "token response missing access_token", 1⟩
            else
              ⟨Except.ok (tr.accessToken,
                now + (if tr.expiresIn ≤ 0 then 3600 else tr.expiresIn)), 1⟩

/-! ## Token cache -/

/-- `vertexAccessToken` of the channel source, with the expiry as Unix
seconds. -/
structure VertexAccessToken where
  accessToken : String
  expiry : Int
deriving DecidableEq

/-- The `tokenCache` map, keyed by the API key's identity. -/
def TokenCache : Type := Nat → Option VertexAccessToken

def emptyCache : TokenCache := fun _ => none

def cacheStore (cache : TokenCache) (key : Nat) (v : VertexAccessToken) : TokenCache :=
  fun k => if k = key then some v else cache k

/-- Result of one `getOrMintAccessToken` call: the returned token or error,
the cache afterwards, whether the minter was invoked, and the number of
network calls made. -/
structure GetOrMintResult where
  result : Except String String
  cache : TokenCache
  minted : Bool
  calls : Nat

/-- The miss path of `getOrMintAccessToken`: mint, and on success store the
new token, overwriting any previous entry. -/
def getOrMintMissPath (cp : CryptoPrims) (exchange : HTTPForm → HTTPResult) (now : Int)
    (cache : TokenCache) (apiKeyID : Nat) (sa : GCPServiceAccount) : GetOrMintResult :=
  match mintAccessTokenFromServiceAccount cp exchange now sa with
  | ⟨Except.error e, calls⟩ => ⟨Except.error e, cache, true, calls⟩
  | ⟨Except.ok (t, exp), calls⟩ =>
    ⟨Except.ok t, cacheStore cache apiKeyID ⟨t, exp⟩, true, calls⟩

/-- `getOrMintAccessToken` of the channel source: a cached token with a
nonempty value and more than 2 minutes (120 seconds) to its expiry is
returned without minting; otherwise the minter runs. -/
def getOrMintAccessToken (cp : CryptoPrims) (exchange : HTTPForm → HTTPResult) (now : Int)
    (cache : TokenCache) (apiKeyID : Nat) (sa : GCPServiceAccount) : GetOrMintResult :=
  match cache apiKeyID with
  | some cached =>
    if cached.accessToken ≠ "" ∧ cached.expiry - now > 120 then
      ⟨Except.ok cached.accessToken, cache, false, 0⟩
    else getOrMintMissPath cp exchange now cache apiKeyID sa
  | none => getOrMintMissPath cp exchange now cache apiKeyID sa

/-! ## Key validation -/

/-- Result of one `ValidateKey` call: the validity verdict, the error (if
any), the number of network calls made, and the cache afterwards. -/
structure ValidateResult where
  valid : Bool
  err : Option String
  calls : Nat
  cache : TokenCache

/-- The project id used by `ValidateKey`: extracted from the upstream URL
path, falling back to the service-account record. -/
def vertexProjectFor (u : GoURL) (sa : GCPServiceAccount) : String :=
  if extractVertexProjectID u = "" then sa.projectID else extractVertexProjectID u

/-- `ValidateKey` of the channel source. The probe HTTP call is the
`probe` argument (URL to outcome); the token exchange is `exchange`. -/
def validateKey (cp : CryptoPrims) (exchange : HTTPForm → HTTPResult)
    (probe : String → HTTPResult) (now : Int) (upstreamURL : Option GoURL)
    (testModel : String) (cache : TokenCache) (apiKeyID : Nat) (keyValue : String) :
    ValidateResult :=
  match upstreamURL with
  | none => ⟨false, some "no upstream URL configured for channel vertex_gemini", 0, cache⟩
  | some u =>
    match parseGCPServiceAccount keyValue with
    | Except.error e => ⟨false, some e, 0, cache⟩
    | Except.ok sa =>
      if vertexProjectFor u sa = "" then
        ⟨false, some "missing project_id (not found in upstream url path or service account json)",
          0, cache⟩
      else if extractVertexLocation u = "" then
        ⟨false, some "unable to infer vertex location from upstream host/path", 0, cache⟩
      else
        match (getOrMintAccessToken cp exchange now cache apiKeyID sa).result with
        | Except.error e =>
          ⟨false, some e, (getOrMintAccessToken cp exchange now cache apiKeyID sa).calls,
            (getOrMintAccessToken cp exchange now cache apiKeyID sa).cache⟩
        | Except.ok _ =>
          match buildVertexModelMethodURL u (vertexProjectFor u sa) (extractVertexLocation u)
              testModel "generateContent" with
          | Except.error e =>
            ⟨false, some e, (getOrMintAccessToken cp exchange now cache apiKeyID sa).calls,
              (getOrMintAccessToken cp exchange now cache apiKeyID sa).cache⟩
          | Except.ok reqURL =>
            match probe reqURL with
            | HTTPResult.failure msg =>
              ⟨false, some ("failed to send validation request: " ++ msg),
                (getOrMintAccessToken cp exchange now cache apiKeyID sa).calls + 1,
                (getOrMintAccessToken cp exchange now cache apiKeyID sa).cache⟩
            | HTTPResult.response st body =>
              if 200 ≤ st ∧ st < 300 then
                ⟨true, none, (getOrMintAccessToken cp exchange now cache apiKeyID sa).calls + 1,
                  (getOrMintAccessToken cp exchange now cache apiKeyID sa).cache⟩
              else
                ⟨false, some ("[status " ++ toString st ++ "] " ++ parseUpstreamError body),
                  (getOrMintAccessToken cp exchange now cache apiKeyID sa).calls + 1,
                  (getOrMintAccessToken cp exchange now cache apiKeyID sa).cache⟩

/-! ## Concrete fixtures used by witnesses and counterexamples -/

/-- Crypto primitives that succeed: PEM decoding yields a block, PKCS#8
parsing yields an RSA handle, hashing is the identity on bytes and signing
returns its input bytes. -/
def cpOk : CryptoPrims :=
  ⟨fun _ => some [0], fun _ => Except.ok (PKCS8Key.rsa 0), fun _ => Except.ok 0,
    fun l => l, fun _ l => Except.ok l⟩

/-- Crypto primitives whose PEM decoding fails. -/
def cpBad : CryptoPrims :=
  ⟨fun _ => none, fun _ => Except.error "bad", fun _ => Except.error "bad",
    fun l => l, fun _ _ => Except.error "bad"⟩

/-- A parsed service account with project `proj1`. -/
def saEx : GCPServiceAccount := ⟨"proj1", "", "PEMKEY", "a@b", ""⟩

/-- A token endpoint answering 200 with a token that expires in 30 seconds. -/
def exchange200s30 : HTTPForm → HTTPResult :=
  fun _ => HTTPResult.response 200 "\x7b\"access_token\":\"t\",\"expires_in\":30\x7d"

/-- A token endpoint answering 500. -/
def exchange500 : HTTPForm → HTTPResult := fun _ => HTTPResult.response 500 "boom"

/-- A cache holding one entry: key 1 with token `tok` expiring at second 1000. -/
def cacheOneTok : TokenCache := cacheStore emptyCache 1 ⟨"tok", 1000⟩

/-- A configured upstream URL with a regional Vertex host and empty path. -/
def upstreamEx : GoURL := ⟨"https", "us-central1-aiplatform.googleapis.com", ""⟩

/-- A stored secret: a service-account JSON with a project id. -/
def saJSONEx : String :=
  "\x7b\"client_email\":\"a@b\",\"private_key\":\"PEMKEY\",\"project_id\":\"proj1\"\x7d"

/-- A stored secret: a service-account JSON without a project id. -/
def saJSONNoProj : String := "\x7b\"client_email\":\"a@b\",\"private_key\":\"PEMKEY\"\x7d"

/-- A probe endpoint answering 200. -/
def probe200 : String → HTTPResult := fun _ => HTTPResult.response 200 "ok"

/-- A probe endpoint answering 401 with a non-JSON error body. -/
def probe401 : String → HTTPResult := fun _ => HTTPResult.response 401 "denied"

/-! # Theorems -/

/-! ## Association-list (Go map) lemmas -/

theorem mapGet_mapSet_same (m : List (String × J)) (k : String) (v : J) :
    mapGet (mapSet m k v) k = some v := by
  induction m with
  | nil => simp [mapSet, mapGet]
  | cons h t ih =>
    obtain ⟨a, w⟩ := h
    by_cases hak : a = k
    · simp [mapSet, hak, mapGet]
    · simp [mapSet, hak, mapGet, ih]

theorem mapGet_mapSet_ne (m : List (String × J)) (k k' : String) (v : J) (h : k' ≠ k) :
    mapGet (mapSet m k v) k' = mapGet m k' := by
  have h2 : ¬(k = k') := fun hh => h hh.symm
  induction m with
  | nil => simp [mapSet, mapGet, h2]
  | cons hd t ih =>
    obtain ⟨a, w⟩ := hd
    by_cases hak : a = k
    · simp [mapSet, mapGet, hak, h2]
    · simp [mapSet, mapGet, hak, ih]

theorem mapGet_mapDel_same (m : List (String × J)) (k : String) :
    mapGet (mapDel m k) k = none := by
  induction m with
  | nil => simp [mapDel, mapGet]
  | cons hd t ih =>
    obtain ⟨a, w⟩ := hd
    by_cases hak : a = k
    · simp [mapDel, hak, ih]
    · simp [mapDel, hak, mapGet, ih]

theorem mapGet_mapDel_ne (m : List (String × J)) (k k' : String) (h : k' ≠ k) :
    mapGet (mapDel m k) k' = mapGet m k' := by
  have h2 : ¬(k = k') := fun hh => h hh.symm
  induction m with
  | nil => simp [mapDel]
  | cons hd t ih =>
    obtain ⟨a, w⟩ := hd
    by_cases hak : a = k
    · simp [mapDel, mapGet, hak, h2, ih]
    · simp [mapDel, mapGet, hak, ih]

/-! ## Claim theorems -/

/-- C9: `IsStreamRequest` returns true exactly when the path ends with
`:streamGenerateContent`, the Accept header contains `text/event-stream`,
the `stream` query parameter equals `"true"`, or the body parses as JSON
with boolean field `stream` set to true — a logical OR of the four
disjuncts, a body that fails to parse counting as no match. -/
theorem c9_stream_classification_is_or (path accept streamQ body : String) :
    isStreamRequest path accept streamQ body =
      (hasSuffix path ":streamGenerateContent" || strContains accept "text/event-stream" ||
        decide (streamQ = "true") || decide (unmarshalStream body = some true)) := by
  unfold isStreamRequest
  cases h1 : hasSuffix path ":streamGenerateContent"
  · cases h2 : strContains accept "text/event-stream"
    · by_cases h3 : streamQ = "true"
      · simp [h1, h2, h3]
      · cases h4 : unmarshalStream body
        · simp [h1, h2, h3, h4]
        · rename_i b
          cases b <;> simp [h1, h2, h3, h4]
    · simp [h1, h2]
  · simp [h1]

/-- C7: an upstream model-list body that does not parse as JSON makes
`TransformModelList` fail, and the (spec-modelled) response handling
returns the unmodified upstream body to the caller rather than a request
failure. -/
theorem c7_list_parse_failure_passthrough (pageTokenQuery body : String)
    (redirectMap : List (String × String)) (strict : Bool)
    (h : unmarshalGoMap body = none) :
    transformModelList pageTokenQuery body redirectMap strict =
        Except.error "failed to parse model list response" ∧
      handleModelListResponse pageTokenQuery body redirectMap strict = body := by
  constructor
  · unfold transformModelList
    rw [h]
  · unfold handleModelListResponse transformModelList
    rw [h]

/-- C7 witness: a concrete non-JSON body is returned unchanged. -/
theorem c7_list_parse_failure_passthrough_witness :
    unmarshalGoMap "not json" = none ∧
      handleModelListResponse "" "not json" [("a", "b")] true = "not json" :=
  ⟨rfl, (c7_list_parse_failure_passthrough "" "not json" [("a", "b")] true rfl).2⟩

/-- C8: the service-account parser fails exactly when the trimmed secret is
empty, does not unmarshal as a service-account JSON document, or the
decoded record lacks a nonempty `client_email` or `private_key`; and a
missing `token_uri` makes the minter use the standard Google OAuth2 token
endpoint. -/
theorem c8_service_account_parse_iff (keyValue : String) (sa0 : GCPServiceAccount) :
    ((∃ e, parseGCPServiceAccount keyValue = Except.error e) ↔
      (goTrimSpace keyValue = "" ∨ unmarshalSA (goTrimSpace keyValue) = none ∨
        ∃ sa, unmarshalSA (goTrimSpace keyValue) = some sa ∧
          (sa.clientEmail = "" ∨ sa.privateKey = ""))) ∧
    (sa0.tokenURI = "" →
      effectiveTokenURI sa0 = "https://oauth2.googleapis.com/token") := by
  constructor
  · unfold parseGCPServiceAccount
    by_cases h1 : goTrimSpace keyValue = ""
    · simp [h1]
    · simp only [h1, if_false]
      cases h2 : unmarshalSA (goTrimSpace keyValue) with
      | none => simp
      | some sa =>
        by_cases h3 : sa.clientEmail = "" ∨ sa.privateKey = ""
        · simp [h1, h3]
        · simp [h1, h3]
  · intro h
    simp [effectiveTokenURI, h, vertexDefaultTokenURI]

/-- C8 witness: a well-formed secret with no `token_uri` parses, and the
minter's effective endpoint is the standard Google one. -/
theorem c8_service_account_parse_iff_witness :
    ¬(∃ e, parseGCPServiceAccount
        " \x7b\"client_email\":\"a@b\",\"private_key\":\"PEMKEY\"\x7d " = Except.error e) ∧
      effectiveTokenURI saEx = "https://oauth2.googleapis.com/token" := by
  constructor
  · intro hcontra
    have h := (c8_service_account_parse_iff
      " \x7b\"client_email\":\"a@b\",\"private_key\":\"PEMKEY\"\x7d " saEx).1.mp hcontra
    rcases h with h | h | ⟨sa, hsa, hfields⟩
    · exact absurd h (by decide)
    · exact absurd h (by decide)
    · have : sa = ⟨"", "", "PEMKEY", "a@b", ""⟩ := by
        have hval : unmarshalSA (goTrimSpace
            " \x7b\"client_email\":\"a@b\",\"private_key\":\"PEMKEY\"\x7d ") =
            some ⟨"", "", "PEMKEY", "a@b", ""⟩ := by decide
        rw [hval] at hsa
        exact (Option.some.injEq _ _).mp hsa.symm
      subst this
      rcases hfields with h | h <;> exact absurd h (by decide)
  · exact (c8_service_account_parse_iff "" saEx).2 rfl

theorem mint_ok_token_nonempty (cp : CryptoPrims) (exchange : HTTPForm → HTTPResult)
    (now : Int) (sa : GCPServiceAccount) (t : String) (exp : Int)
    (h : (mintAccessTokenFromServiceAccount cp exchange now sa).result = Except.ok (t, exp)) :
    t ≠ "" := by
  unfold mintAccessTokenFromServiceAccount at h
  by_cases h1 : sa.clientEmail = "" ∨ sa.privateKey = ""
  · rw [if_pos h1] at h
    exact absurd h (by simp)
  · rw [if_neg h1] at h
    cases h2 : rs256Sign cp (jwtUnsigned sa now) sa.privateKey with
    | error e =>
      rw [h2] at h
      exact absurd h (by simp)
    | ok sigB64 =>
      rw [h2] at h
      dsimp only [] at h
      cases h3 : exchange ⟨effectiveTokenURI sa, "urn:ietf:params:oauth:grant-type:jwt-bearer",
          jwtUnsigned sa now ++ "." ++ sigB64⟩ with
      | failure msg =>
        rw [h3] at h
        exact absurd h (by simp)
      | response st body =>
        rw [h3] at h
        dsimp only [] at h
        by_cases h4 : st < 200 ∨ 300 ≤ st
        · rw [if_pos h4] at h
          exact absurd h (by simp)
        · rw [if_neg h4] at h
          cases h5 : unmarshalTokenResp body with
          | none =>
            rw [h5] at h
            exact absurd h (by simp)
          | some tr =>
            rw [h5] at h
            dsimp only [] at h
            by_cases h6 : tr.accessToken = ""
            · rw [if_pos h6] at h
              exact absurd h (by simp)
            · rw [if_neg h6] at h
              simp only [MintResult.mk.injEq] at h
              have ht : tr.accessToken = t := by
                have := h
                simp at this
                exact this.1
              rw [← ht]
              exact h6

theorem missPath_minted (cp : CryptoPrims) (exchange : HTTPForm → HTTPResult) (now : Int)
    (cache : TokenCache) (apiKeyID : Nat) (sa : GCPServiceAccount) :
    (getOrMintMissPath cp exchange now cache apiKeyID sa).minted = true := by
  unfold getOrMintMissPath
  cases hm : mintAccessTokenFromServiceAccount cp exchange now sa with
  | mk res calls =>
    cases res with
    | error e => rfl
    | ok p =>
      obtain ⟨t, exp⟩ := p
      rfl

theorem missPath_error_cache (cp : CryptoPrims) (exchange : HTTPForm → HTTPResult) (now : Int)
    (cache : TokenCache) (apiKeyID : Nat) (sa : GCPServiceAccount) (e : String)
    (he : (getOrMintMissPath cp exchange now cache apiKeyID sa).result = Except.error e) :
    (getOrMintMissPath cp exchange now cache apiKeyID sa).cache = cache := by
  unfold getOrMintMissPath at he ⊢
  cases hm : mintAccessTokenFromServiceAccount cp exchange now sa with
  | mk res calls =>
    cases res with
    | error e2 => rfl
    | ok p =>
      obtain ⟨t, exp⟩ := p
      rw [hm] at he
      exact absurd he (by simp)

theorem missPath_ok (cp : CryptoPrims) (exchange : HTTPForm → HTTPResult) (now : Int)
    (cache : TokenCache) (apiKeyID : Nat) (sa : GCPServiceAccount) (t : String) (exp : Int)
    (hm : (mintAccessTokenFromServiceAccount cp exchange now sa).result = Except.ok (t, exp)) :
    (getOrMintMissPath cp exchange now cache apiKeyID sa).result = Except.ok t ∧
      (getOrMintMissPath cp exchange now cache apiKeyID sa).cache =
        cacheStore cache apiKeyID ⟨t, exp⟩ := by
  unfold getOrMintMissPath
  cases hmm : mintAccessTokenFromServiceAccount cp exchange now sa with
  | mk res calls =>
    rw [hmm] at hm
    dsimp only [] at hm
    cases res with
    | error e => exact absurd hm (by simp)
    | ok p =>
      obtain ⟨t2, exp2⟩ := p
      have : t2 = t ∧ exp2 = exp := by
        simp at hm
        exact hm
      obtain ⟨rfl, rfl⟩ := this
      exact ⟨rfl, rfl⟩

theorem missPath_nonempty_inv (cp : CryptoPrims) (exchange : HTTPForm → HTTPResult) (now : Int)
    (cache : TokenCache) (apiKeyID : Nat) (sa : GCPServiceAccount)
    (hinv : ∀ k v, cache k = some v → v.accessToken ≠ "") :
    ∀ k v, (getOrMintMissPath cp exchange now cache apiKeyID sa).cache k = some v →
      v.accessToken ≠ "" := by
  intro k v hk
  unfold getOrMintMissPath at hk
  cases hm : mintAccessTokenFromServiceAccount cp exchange now sa with
  | mk res calls =>
    rw [hm] at hk
    cases res with
    | error e => exact hinv k v hk
    | ok p =>
      obtain ⟨t, exp⟩ := p
      dsimp only [] at hk
      by_cases hkk : k = apiKeyID
      · subst hkk
        unfold cacheStore at hk
        rw [if_pos rfl] at hk
        have hv : (⟨t, exp⟩ : VertexAccessToken) = v := by
          exact (Option.some.injEq _ _).mp hk
        rw [← hv]
        exact mint_ok_token_nonempty cp exchange now sa t exp (by rw [hm])
      · unfold cacheStore at hk
        rw [if_neg hkk] at hk
        exact hinv k v hk

/-- C10: whenever `getOrMintAccessToken` fails (missing credential fields,
PEM parse or signing failure, transport failure, non-2xx exchange,
unparseable token response, or a 2xx response without a nonempty
`access_token`), the cache entry for the identity is left exactly as
before the call; and the invariant that every stored entry holds a
nonempty token string is preserved by every call. -/
theorem c10_failed_mint_preserves_cache (cp : CryptoPrims) (exchange : HTTPForm → HTTPResult)
    (now : Int) (cache : TokenCache) (apiKeyID : Nat) (sa : GCPServiceAccount) :
    (∀ e, (getOrMintAccessToken cp exchange now cache apiKeyID sa).result = Except.error e →
      (getOrMintAccessToken cp exchange now cache apiKeyID sa).cache = cache) ∧
    ((∀ k v, cache k = some v → v.accessToken ≠ "") →
      ∀ k v, (getOrMintAccessToken cp exchange now cache apiKeyID sa).cache k = some v →
        v.accessToken ≠ "") := by
  unfold getOrMintAccessToken
  cases hc : cache apiKeyID with
  | some cached =>
    dsimp only []
    by_cases hcond : cached.accessToken ≠ "" ∧ cached.expiry - now > 120
    · rw [if_pos hcond]
      constructor
      · intro e he
        exact absurd he (by simp)
      · intro hinv k v hk
        exact hinv k v hk
    · rw [if_neg hcond]
      exact ⟨fun e he => missPath_error_cache cp exchange now cache apiKeyID sa e he,
        fun hinv => missPath_nonempty_inv cp exchange now cache apiKeyID sa hinv⟩
  | none =>
    dsimp only []
    exact ⟨fun e he => missPath_error_cache cp exchange now cache apiKeyID sa e he,
      fun hinv => missPath_nonempty_inv cp exchange now cache apiKeyID sa hinv⟩

/-- C10 witness: a concrete failing mint (PEM decoding fails) leaves a
one-entry cache exactly as it was. -/
theorem c10_failed_mint_preserves_cache_witness :
    (getOrMintAccessToken cpBad exchange500 0 cacheOneTok 2 saEx).result =
        Except.error "invalid private key pem" ∧
      (getOrMintAccessToken cpBad exchange500 0 cacheOneTok 2 saEx).cache = cacheOneTok := by
  constructor
  · rfl
  · exact (c10_failed_mint_preserves_cache cpBad exchange500 0 cacheOneTok 2 saEx).1
      "invalid private key pem" rfl

/-- C1 counterexample: the claim's safety invariant "no access token is
ever returned to a caller within 2 minutes of its expiry" fails for a
freshly minted token. With an empty cache at time 0 and a token endpoint
answering 200 with `expires_in: 30`, `getOrMintAccessToken` returns the
token `t` and stores it with expiry 30, which is not more than 2 minutes
(120 seconds) in the future. -/
theorem c1_counterexample_fresh_token_within_margin :
    (getOrMintAccessToken cpOk exchange200s30 0 emptyCache 1 saEx).result = Except.ok "t" ∧
      (getOrMintAccessToken cpOk exchange200s30 0 emptyCache 1 saEx).cache 1 =
        some ⟨"t", 30⟩ ∧
      ¬((30 : Int) - 0 > 120) :=
  ⟨rfl, rfl, by decide⟩

/-- C1 (amended): a `getOrMintAccessToken` call returns the cached token
value without invoking the minter exactly when an entry for the identity
is present with its expiry more than 2 minutes in the future (any token
served from the cache therefore has more than 2 minutes to its expiry,
the hypothesis `hne` being the stored-token invariant of the cache);
otherwise it invokes the minter once and, on success, stores the new
token, overwriting any previous entry. A freshly minted token, however,
is returned regardless of its remaining lifetime. -/
theorem c1_token_cache_get_or_mint (cp : CryptoPrims) (exchange : HTTPForm → HTTPResult)
    (now : Int) (cache : TokenCache) (apiKeyID : Nat) (sa : GCPServiceAccount)
    (hne : ∀ v, cache apiKeyID = some v → v.accessToken ≠ "") :
    (∀ v, cache apiKeyID = some v → v.expiry - now > 120 →
      (getOrMintAccessToken cp exchange now cache apiKeyID sa).result =
          Except.ok v.accessToken ∧
        (getOrMintAccessToken cp exchange now cache apiKeyID sa).minted = false ∧
        (getOrMintAccessToken cp exchange now cache apiKeyID sa).cache = cache) ∧
    ((cache apiKeyID = none ∨ ∃ v, cache apiKeyID = some v ∧ ¬(v.expiry - now > 120)) →
      (getOrMintAccessToken cp exchange now cache apiKeyID sa).minted = true ∧
      ∀ t exp,
        (mintAccessTokenFromServiceAccount cp exchange now sa).result = Except.ok (t, exp) →
        (getOrMintAccessToken cp exchange now cache apiKeyID sa).result = Except.ok t ∧
          (getOrMintAccessToken cp exchange now cache apiKeyID sa).cache =
            cacheStore cache apiKeyID ⟨t, exp⟩) := by
  constructor
  · intro v hv hexp
    have hvne : v.accessToken ≠ "" := hne v hv
    unfold getOrMintAccessToken
    rw [hv]
    dsimp only []
    rw [if_pos ⟨hvne, hexp⟩]
    exact ⟨rfl, rfl, rfl⟩
  · intro hmiss
    have hred : getOrMintAccessToken cp exchange now cache apiKeyID sa =
        getOrMintMissPath cp exchange now cache apiKeyID sa := by
      unfold getOrMintAccessToken
      rcases hmiss with hnone | ⟨v, hv, hstale⟩
      · rw [hnone]
      · rw [hv]
        dsimp only []
        rw [if_neg (fun hcontra => hstale hcontra.2)]
    rw [hred]
    refine ⟨missPath_minted cp exchange now cache apiKeyID sa, ?_⟩
    intro t exp hm
    exact missPath_ok cp exchange now cache apiKeyID sa t exp hm

/-- C1 witness: with a cache holding `tok` expiring at second 1000 and the
clock at 0, the call returns `tok` from the cache. -/
theorem c1_token_cache_get_or_mint_witness :
    (getOrMintAccessToken cpOk exchange200s30 0 cacheOneTok 1 saEx).result =
        Except.ok "tok" ∧
      (getOrMintAccessToken cpOk exchange200s30 0 cacheOneTok 1 saEx).minted = false := by
  have hne : ∀ v, cacheOneTok 1 = some v → v.accessToken ≠ "" := by
    intro v hv
    have hv2 : some (⟨"tok", 1000⟩ : VertexAccessToken) = some v := hv
    rw [← (Option.some.injEq _ _).mp hv2]
    decide
  have h := (c1_token_cache_get_or_mint cpOk exchange200s30 0 cacheOneTok 1 saEx hne).1
    ⟨"tok", 1000⟩ rfl (by decide)
  exact ⟨h.1, h.2.1⟩

/-- C2: the minter builds the assertion as base64url-without-padding of the
header (`alg` RS256, `typ` JWT, `kid` only when a private-key id is
present), a dot, base64url of the claims (`iss` client email, `scope` the
cloud-platform scope, `aud` the token endpoint, `iat` now, `exp` now plus
3600), a dot, and the base64url RSA-SHA256 signature over the first two
parts; signing accepts a PKCS#8 RSA key and falls back to PKCS#1; the
exchange POSTs form fields `grant_type=urn:ietf:params:oauth:grant-type:jwt-bearer`
and `assertion` to the token endpoint; a non-2xx response fails with the
parsed upstream error body, and a 2xx response yields the token with
absolute expiry `now + expires_in`, defaulting to 3600 when absent or
non-positive. -/
theorem c2_mint_assertion_and_exchange (cp : CryptoPrims) (exchange : HTTPForm → HTTPResult)
    (now : Int) (sa : GCPServiceAccount) (sig : String)
    (h1 : sa.clientEmail ≠ "") (h2 : sa.privateKey ≠ "")
    (hsig : rs256Sign cp (jwtUnsigned sa now) sa.privateKey = Except.ok sig) :
    (sa.privateKeyID = "" →
      jwtHeaderJSON sa = "\x7b\"alg\":\"RS256\",\"typ\":\"JWT\"\x7d") ∧
    (sa.privateKeyID ≠ "" →
      jwtHeaderJSON sa = "\x7b\"alg\":\"RS256\",\"typ\":\"JWT\"" ++
        (",\"kid\":\"" ++ jsonEscape sa.privateKeyID ++ "\"") ++ "\x7d") ∧
    jwtClaimsJSON sa now = "\x7b\"iss\":\"" ++ jsonEscape sa.clientEmail ++ "\",\"scope\":\"" ++
      jsonEscape "https://www.googleapis.com/auth/cloud-platform" ++ "\",\"aud\":\"" ++
      jsonEscape (effectiveTokenURI sa) ++ "\",\"iat\":" ++ toString now ++ ",\"exp\":" ++
      toString (now + 3600) ++ "\x7d" ∧
    jwtUnsigned sa now = b64url (strBytes (jwtHeaderJSON sa)) ++ "." ++
      b64url (strBytes (jwtClaimsJSON sa now)) ∧
    (∀ blk k sigBytes, cp.pemDecode sa.privateKey = some blk →
      cp.parsePKCS8 blk = Except.ok (PKCS8Key.rsa k) →
      cp.rsaSignPKCS1v15 k (cp.sha256 (strBytes (jwtUnsigned sa now))) = Except.ok sigBytes →
      rs256Sign cp (jwtUnsigned sa now) sa.privateKey = Except.ok (b64url sigBytes)) ∧
    (∀ blk e k sigBytes, cp.pemDecode sa.privateKey = some blk →
      cp.parsePKCS8 blk = Except.error e →
      cp.parsePKCS1 blk = Except.ok k →
      cp.rsaSignPKCS1v15 k (cp.sha256 (strBytes (jwtUnsigned sa now))) = Except.ok sigBytes →
      rs256Sign cp (jwtUnsigned sa now) sa.privateKey = Except.ok (b64url sigBytes)) ∧
    (∀ st body,
      exchange ⟨effectiveTokenURI sa, "urn:ietf:params:oauth:grant-type:jwt-bearer",
        jwtUnsigned sa now ++ "." ++ sig⟩ = HTTPResult.response st body →
      ((st < 200 ∨ 300 ≤ st) →
        (mintAccessTokenFromServiceAccount cp exchange now sa).result =
          Except.error ("[status " ++ toString st ++ "] " ++ parseUpstreamError body)) ∧
      (¬(st < 200 ∨ 300 ≤ st) →
        (unmarshalTokenResp body = none →
          (mintAccessTokenFromServiceAccount cp exchange now sa).result =
            Except.error "failed to parse token response") ∧
        ∀ tr, unmarshalTokenResp body = some tr → tr.accessToken ≠ "" →
          (mintAccessTokenFromServiceAccount cp exchange now sa).result =
            Except.ok (tr.accessToken,
              now + (if tr.expiresIn ≤ 0 then 3600 else tr.expiresIn)))) := by
  have hno : ¬(sa.clientEmail = "" ∨ sa.privateKey = "") := by
    intro hcontra
    rcases hcontra with hh | hh
    · exact h1 hh
    · exact h2 hh
  refine ⟨?_, ?_, rfl, rfl, ?_, ?_, ?_⟩
  · intro hk
    unfold jwtHeaderJSON
    rw [hk]
    rfl
  · intro hk
    unfold jwtHeaderJSON
    rw [if_neg hk]
  · intro blk k sigBytes hpem hp8 hsign
    unfold rs256Sign parseRSAPrivateKeyFromPEM
    rw [hpem]
    dsimp only []
    rw [hp8]
    dsimp only []
    rw [hsign]
  · intro blk e k sigBytes hpem hp8 hp1 hsign
    unfold rs256Sign parseRSAPrivateKeyFromPEM
    rw [hpem]
    dsimp only []
    rw [hp8]
    dsimp only []
    rw [hp1]
    dsimp only []
    rw [hsign]
  · intro st body hex
    constructor
    · intro hst
      unfold mintAccessTokenFromServiceAccount
      rw [if_neg hno, hsig]
      dsimp only []
      rw [hex]
      dsimp only []
      rw [if_pos hst]
    · intro hst
      constructor
      · intro hparse
        unfold mintAccessTokenFromServiceAccount
        rw [if_neg hno, hsig]
        dsimp only []
        rw [hex]
        dsimp only []
        rw [if_neg hst, hparse]
      · intro tr htr hne2
        unfold mintAccessTokenFromServiceAccount
        rw [if_neg hno, hsig]
        dsimp only []
        rw [hex]
        dsimp only []
        rw [if_neg hst, htr]
        dsimp only []
        rw [if_neg hne2]

/-- C2 witness: with trivial crypto primitives and a token endpoint
answering 200 with `expires_in: 30`, the mint succeeds with expiry 30. -/
theorem c2_mint_assertion_and_exchange_witness :
    (mintAccessTokenFromServiceAccount cpOk exchange200s30 0 saEx).result =
      Except.ok ("t", 30) := by
  have h := (c2_mint_assertion_and_exchange cpOk exchange200s30 0 saEx
    (b64url (strBytes (jwtUnsigned saEx 0))) (by decide) (by decide) rfl).2.2.2.2.2.2
  have h2 := ((h 200 "\x7b\"access_token\":\"t\",\"expires_in\":30\x7d" rfl).2
    (by omega)).2 ⟨"t", 30⟩ rfl (by decide)
  simpa using h2

theorem str_append_empty (s : String) : s ++ "" = s := by
  cases s with
  | mk l =>
    show String.append ⟨l⟩ ⟨[]⟩ = ⟨l⟩
    unfold String.append
    dsimp only []
    rw [List.append_nil]

/-- C3: for a path containing a Gemini-native models prefix (`/v1beta/models`
searched first, then `/v1/models`), the rewrite replaces the matched
occurrence while preserving everything before and after it, following
exactly the source's case order on the part before the match: an upstream
part already containing `/publishers/google/models` drops the matched
prefix; one containing `/publishers/google` appends `/models` (nothing
when it already ends in `/models`); one containing both `/projects/` and
`/locations/` appends `/publishers/google/models`; otherwise a full
prefix `/v1/projects/{project}/locations/{location}/publishers/google/models`
is synthesized from the service account's project and the inferred
location, and if either cannot be determined the path is left unchanged. -/
theorem c3_gemini_to_vertex_path_rewrite (u : GoURL) (sa : GCPServiceAccount) :
    (findGeminiModelsPfx u.path = none → rewriteGeminiNativePathToVertex u sa = u) ∧
    ∀ idx matched, findGeminiModelsPfx u.path = some (idx, matched) →
      ((strContains (strTake u.path idx) "/publishers/google/models" = true →
        (rewriteGeminiNativePathToVertex u sa).path =
          strTake u.path idx ++ strDrop u.path (idx + matched.length)) ∧
       (strContains (strTake u.path idx) "/publishers/google/models" = false →
        strContains (strTake u.path idx) "/publishers/google" = true →
        ((hasSuffix (trimRightSlashes (strTake u.path idx)) "/models" = true →
           (rewriteGeminiNativePathToVertex u sa).path =
             strTake u.path idx ++ strDrop u.path (idx + matched.length)) ∧
         (hasSuffix (trimRightSlashes (strTake u.path idx)) "/models" = false →
           (rewriteGeminiNativePathToVertex u sa).path =
             strTake u.path idx ++ "/models" ++ strDrop u.path (idx + matched.length)))) ∧
       (strContains (strTake u.path idx) "/publishers/google/models" = false →
        strContains (strTake u.path idx) "/publishers/google" = false →
        strContains (strTake u.path idx) "/projects/" = true →
        strContains (strTake u.path idx) "/locations/" = true →
          (rewriteGeminiNativePathToVertex u sa).path =
            strTake u.path idx ++ "/publishers/google/models" ++
              strDrop u.path (idx + matched.length)) ∧
       (strContains (strTake u.path idx) "/publishers/google/models" = false →
        strContains (strTake u.path idx) "/publishers/google" = false →
        ¬(strContains (strTake u.path idx) "/projects/" = true ∧
          strContains (strTake u.path idx) "/locations/" = true) →
        ((sa.projectID ≠ "" → extractVertexLocation u ≠ "" →
           (rewriteGeminiNativePathToVertex u sa).path =
             strTake u.path idx ++ ("/v1/projects/" ++ sa.projectID ++ "/locations/" ++
               extractVertexLocation u ++ "/publishers/google/models") ++
               strDrop u.path (idx + matched.length)) ∧
         ((sa.projectID = "" ∨ extractVertexLocation u = "") →
           rewriteGeminiNativePathToVertex u sa = u)))) := by
  constructor
  · intro hnone
    unfold rewriteGeminiNativePathToVertex
    rw [hnone]
  · intro idx matched hfind
    have hrw : ∀ repl, vertexModelsReplacement (strTake u.path idx) u sa = some repl →
        (rewriteGeminiNativePathToVertex u sa).path =
          strTake u.path idx ++ repl ++ strDrop u.path (idx + matched.length) := by
      intro repl hr
      unfold rewriteGeminiNativePathToVertex
      rw [hfind]
      dsimp only []
      rw [hr]
    have hskip : vertexModelsReplacement (strTake u.path idx) u sa = none →
        rewriteGeminiNativePathToVertex u sa = u := by
      intro hr
      unfold rewriteGeminiNativePathToVertex
      rw [hfind]
      dsimp only []
      rw [hr]
    refine ⟨?_, ?_, ?_, ?_⟩
    · intro hc1
      have h := hrw "" (by unfold vertexModelsReplacement; rw [hc1]; rfl)
      rw [str_append_empty] at h
      exact h
    · intro hc1 hc2
      constructor
      · intro hsuf
        have h := hrw "" (by
          unfold vertexModelsReplacement
          rw [hc1, hc2]
          simp [hsuf])
        rw [str_append_empty] at h
        exact h
      · intro hsuf
        exact hrw "/models" (by
          unfold vertexModelsReplacement
          rw [hc1, hc2]
          simp [hsuf])
    · intro hc1 hc2 hp hl
      exact hrw "/publishers/google/models" (by
        unfold vertexModelsReplacement
        rw [hc1, hc2]
        simp [hp, hl])
    · intro hc1 hc2 hpl
      constructor
      · intro hproj hloc
        exact hrw ("/v1/projects/" ++ sa.projectID ++ "/locations/" ++
          extractVertexLocation u ++ "/publishers/google/models") (by
          unfold vertexModelsReplacement
          rw [hc1, hc2]
          simp [hpl, hproj, hloc])
      · intro hfail
        apply hskip
        unfold vertexModelsReplacement
        rw [hc1, hc2]
        rcases hfail with hfail | hfail
        · simp [hpl, hfail]
        · simp [hpl, hfail]

/-- C3 witness: the spec's worked example — upstream host
`us-central1-aiplatform.googleapis.com`, service-account project `proj1`,
inbound `/v1beta/models/gemini-pro:streamGenerateContent`. -/
theorem c3_gemini_to_vertex_path_rewrite_witness :
    (rewriteGeminiNativePathToVertex
      ⟨"https", "us-central1-aiplatform.googleapis.com",
        "/v1beta/models/gemini-pro:streamGenerateContent"⟩ saEx).path =
      "/v1/projects/proj1/locations/us-central1/publishers/google/models/gemini-pro:streamGenerateContent" := by
  have h := (((c3_gemini_to_vertex_path_rewrite
    ⟨"https", "us-central1-aiplatform.googleapis.com",
      "/v1beta/models/gemini-pro:streamGenerateContent"⟩ saEx).2
    0 geminiPfxV1Beta rfl).2.2.2 rfl rfl (by decide)).1 (by decide) (by decide)
  rw [h]
  rfl

/-- C4 counterexample: with strict mode on and the nonempty redirect map
mapping `a` to `b`, a request whose located model is not a key of the map
(the path `/v1beta/foo` has no models segment, and the body `b` is not
JSON, so the located model is empty) must, per the claim, fail with a
model-not-configured error; the code instead passes it through unchanged
with no error. -/
theorem c4_counterexample_strict_passthrough :
    lookupStr [("a", "b")] (extractModel "/v1beta/foo" "b") = none ∧
      applyModelRedirect [("a", "b")] true "/v1beta/foo" "b" =
        ⟨none, "/v1beta/foo", "b"⟩ :=
  ⟨rfl, rfl⟩

/-- C4 (amended): on a non-`/openai/` path, a strict-mode failure with
path and body left unmodified occurs exactly when the redirect map is
nonempty, the path has a models segment, and that segment's model is
absent from the map; with an empty redirect map, no models segment, or
strict mode off, the request passes through with path and body
unchanged. -/
theorem c4_strict_redirect_absent_model (redirectMap : List (String × String)) (strict : Bool)
    (path body : String) (hopenai : strContains path "/openai/" = false) :
    (redirectMap = [] → applyModelRedirect redirectMap strict path body = ⟨none, path, body⟩) ∧
    (redirectMap ≠ [] →
      (findModelsAux 0 (goSplitSlash path) = none →
        applyModelRedirect redirectMap strict path body = ⟨none, path, body⟩) ∧
      ∀ i, findModelsAux 0 (goSplitSlash path) = some i →
        lookupStr redirectMap (headUntilColon ((goSplitSlash path).getD (i + 1) "")) = none →
        ((strict = true →
           applyModelRedirect redirectMap strict path body =
             ⟨some ("model " ++ headUntilColon ((goSplitSlash path).getD (i + 1) "") ++
               " is not configured in redirect rules"), path, body⟩) ∧
         (strict = false →
           applyModelRedirect redirectMap strict path body = ⟨none, path, body⟩))) := by
  constructor
  · intro hmap
    unfold applyModelRedirect
    rw [if_pos hmap]
  · intro hmap
    have hred : applyModelRedirect redirectMap strict path body =
        applyNativeFormatRedirect redirectMap strict path body := by
      unfold applyModelRedirect
      rw [if_neg hmap]
      simp [hopenai]
    constructor
    · intro hfind
      rw [hred]
      unfold applyNativeFormatRedirect
      rw [hfind]
    · intro i hfind habsent
      constructor
      · intro hstrict
        subst hstrict
        rw [hred]
        unfold applyNativeFormatRedirect
        rw [hfind]
        dsimp only []
        rw [habsent]
        rfl
      · intro hstrict
        subst hstrict
        rw [hred]
        unfold applyNativeFormatRedirect
        rw [hfind]
        dsimp only []
        rw [habsent]
        rfl

/-- C4 witness: a strict redirect with the model `c` absent from the map
fails and leaves path and body unmodified; the same request in non-strict
mode passes through unchanged. -/
theorem c4_strict_redirect_absent_model_witness :
    applyModelRedirect [("a", "b")] true "/v1beta/models/c:generateContent" "x" =
        ⟨some "model c is not configured in redirect rules",
          "/v1beta/models/c:generateContent", "x"⟩ ∧
      applyModelRedirect [("a", "b")] false "/v1beta/models/c:generateContent" "x" =
        ⟨none, "/v1beta/models/c:generateContent", "x"⟩ := by
  constructor
  · have h := (((c4_strict_redirect_absent_model [("a", "b")] true
      "/v1beta/models/c:generateContent" "x" rfl).2 (by decide)).2 2 rfl rfl).1 rfl
    rw [h]
    rfl
  · exact (((c4_strict_redirect_absent_model [("a", "b")] false
      "/v1beta/models/c:generateContent" "x" rfl).2 (by decide)).2 2 rfl rfl).2 rfl

/-- C5: on a Gemini-shaped envelope whose `models` key holds an array, the
transform in strict mode replaces the array with exactly the configured
target models and removes the `nextPageToken` key, regardless of the
upstream models or page token; in non-strict mode it merges upstream and
configured models only on the first page (no inbound page-token query
parameter) and passes later pages through with the upstream array
unchanged; all other envelope keys are preserved in every case. -/
theorem c5_gemini_model_list_transform (pageTokenQuery : String)
    (response : List (String × J)) (upstream : List J)
    (redirectMap : List (String × String)) (strict : Bool)
    (hmodels : mapGet response "models" = some (J.arr upstream)) :
    (strict = true →
      mapGet (transformGeminiNativeFormat pageTokenQuery response (J.arr upstream)
          redirectMap strict) "models" =
        some (J.arr (buildConfiguredGeminiModels redirectMap)) ∧
      mapGet (transformGeminiNativeFormat pageTokenQuery response (J.arr upstream)
          redirectMap strict) "nextPageToken" = none ∧
      ∀ k, k ≠ "models" → k ≠ "nextPageToken" →
        mapGet (transformGeminiNativeFormat pageTokenQuery response (J.arr upstream)
          redirectMap strict) k = mapGet response k) ∧
    (strict = false → pageTokenQuery = "" →
      mapGet (transformGeminiNativeFormat pageTokenQuery response (J.arr upstream)
          redirectMap strict) "models" =
        some (J.arr (mergeGeminiModelLists upstream (buildConfiguredGeminiModels redirectMap))) ∧
      ∀ k, k ≠ "models" →
        mapGet (transformGeminiNativeFormat pageTokenQuery response (J.arr upstream)
          redirectMap strict) k = mapGet response k) ∧
    (strict = false → pageTokenQuery ≠ "" →
      mapGet (transformGeminiNativeFormat pageTokenQuery response (J.arr upstream)
          redirectMap strict) "models" = mapGet response "models" ∧
      ∀ k, k ≠ "models" →
        mapGet (transformGeminiNativeFormat pageTokenQuery response (J.arr upstream)
          redirectMap strict) k = mapGet response k) := by
  refine ⟨?_, ?_, ?_⟩
  · intro hstrict
    subst hstrict
    unfold transformGeminiNativeFormat
    dsimp only []
    rw [if_pos rfl]
    refine ⟨?_, ?_, ?_⟩
    · rw [mapGet_mapDel_ne _ _ _ (by decide)]
      exact mapGet_mapSet_same response "models" _
    · exact mapGet_mapDel_same _ "nextPageToken"
    · intro k hk1 hk2
      rw [mapGet_mapDel_ne _ _ _ hk2]
      exact mapGet_mapSet_ne response "models" k _ hk1
  · intro hstrict hfirst
    subst hstrict
    unfold transformGeminiNativeFormat
    dsimp only []
    rw [if_neg (by decide), if_pos (by simp [isFirstPage, hfirst])]
    refine ⟨mapGet_mapSet_same response "models" _, ?_⟩
    intro k hk
    exact mapGet_mapSet_ne response "models" k _ hk
  · intro hstrict hlater
    subst hstrict
    unfold transformGeminiNativeFormat
    dsimp only []
    rw [if_neg (by decide), if_neg (by simp [isFirstPage, hlater])]
    refine ⟨?_, ?_⟩
    · rw [mapGet_mapSet_same response "models" _, hmodels]
    · intro k hk
      exact mapGet_mapSet_ne response "models" k _ hk

/-- C5 witness: a strict transform of a concrete envelope with upstream
model `x` and page token `t`, under the map `a` to `b`, yields exactly the
configured target `b` and no `nextPageToken` key. -/
theorem c5_gemini_model_list_transform_witness :
    mapGet (transformGeminiNativeFormat ""
        [("models", J.arr [J.obj [("name", J.str "models/x")]]), ("nextPageToken", J.str "t")]
        (J.arr [J.obj [("name", J.str "models/x")]]) [("a", "b")] true) "models" =
        some (J.arr [J.obj [("name", J.str "models/b")]]) ∧
      mapGet (transformGeminiNativeFormat ""
        [("models", J.arr [J.obj [("name", J.str "models/x")]]), ("nextPageToken", J.str "t")]
        (J.arr [J.obj [("name", J.str "models/x")]]) [("a", "b")] true) "nextPageToken" =
        none := by
  have h := (c5_gemini_model_list_transform ""
    [("models", J.arr [J.obj [("name", J.str "models/x")]]), ("nextPageToken", J.str "t")]
    [J.obj [("name", J.str "models/x")]] [("a", "b")] true rfl).1 rfl
  exact ⟨h.1, h.2.1⟩

/-- C6 counterexample: the claim says every local error of `ValidateKey`
(including probe-URL construction) short-circuits before any network call
is attempted. With an empty test model, a cold cache and a token endpoint
answering 200, the probe-URL construction fails locally — but only after
the token-exchange network call: the call count is 1, not 0. -/
theorem c6_counterexample_url_error_after_mint_call :
    (validateKey cpOk exchange200s30 probe200 0 (some upstreamEx) "" emptyCache 1
        saJSONEx).err = some "missing required vertex url parts" ∧
      (validateKey cpOk exchange200s30 probe200 0 (some upstreamEx) "" emptyCache 1
        saJSONEx).valid = false ∧
      (validateKey cpOk exchange200s30 probe200 0 (some upstreamEx) "" emptyCache 1
        saJSONEx).calls = 1 :=
  ⟨rfl, rfl, rfl⟩

/-- C6 (amended): `ValidateKey` returns valid exactly when the probe
request receives a 2xx status; any other probe status is a validation
failure carrying the parsed upstream error (`[status N]` followed by the
parsed body), and a probe transport failure carries the transport error;
failure to infer the project id or the location is a local validation
failure, distinct from an upstream rejection, that short-circuits before
any network call (0 calls), as do a missing upstream URL and a credential
parse failure; a probe-URL construction failure short-circuits before the
probe call but after the token mint, which may already have performed the
token-exchange call. -/
theorem c6_validate_key_probe_and_local_errors (cp : CryptoPrims)
    (exchange : HTTPForm → HTTPResult) (probe : String → HTTPResult) (now : Int) (u : GoURL)
    (testModel : String) (cache : TokenCache) (apiKeyID : Nat) (keyValue : String) :
    validateKey cp exchange probe now none testModel cache apiKeyID keyValue =
      ⟨false, some "no upstream URL configured for channel vertex_gemini", 0, cache⟩ ∧
    (∀ e, parseGCPServiceAccount keyValue = Except.error e →
      validateKey cp exchange probe now (some u) testModel cache apiKeyID keyValue =
        ⟨false, some e, 0, cache⟩) ∧
    (∀ sa, parseGCPServiceAccount keyValue = Except.ok sa →
      ((vertexProjectFor u sa = "" →
        validateKey cp exchange probe now (some u) testModel cache apiKeyID keyValue =
          ⟨false,
            some "missing project_id (not found in upstream url path or service account json)",
            0, cache⟩) ∧
       (vertexProjectFor u sa ≠ "" → extractVertexLocation u = "" →
        validateKey cp exchange probe now (some u) testModel cache apiKeyID keyValue =
          ⟨false, some "unable to infer vertex location from upstream host/path", 0, cache⟩) ∧
       ((validateKey cp exchange probe now (some u) testModel cache apiKeyID
          keyValue).valid = true ↔
        (vertexProjectFor u sa ≠ "" ∧ extractVertexLocation u ≠ "" ∧
         ∃ tok reqURL st body,
           (getOrMintAccessToken cp exchange now cache apiKeyID sa).result = Except.ok tok ∧
           buildVertexModelMethodURL u (vertexProjectFor u sa) (extractVertexLocation u)
             testModel "generateContent" = Except.ok reqURL ∧
           probe reqURL = HTTPResult.response st body ∧ 200 ≤ st ∧ st < 300)) ∧
       (vertexProjectFor u sa ≠ "" → extractVertexLocation u ≠ "" →
        ∀ tok e,
          (getOrMintAccessToken cp exchange now cache apiKeyID sa).result = Except.ok tok →
          buildVertexModelMethodURL u (vertexProjectFor u sa) (extractVertexLocation u)
            testModel "generateContent" = Except.error e →
          validateKey cp exchange probe now (some u) testModel cache apiKeyID keyValue =
            ⟨false, some e, (getOrMintAccessToken cp exchange now cache apiKeyID sa).calls,
              (getOrMintAccessToken cp exchange now cache apiKeyID sa).cache⟩) ∧
       (vertexProjectFor u sa ≠ "" → extractVertexLocation u ≠ "" →
        ∀ tok reqURL,
          (getOrMintAccessToken cp exchange now cache apiKeyID sa).result = Except.ok tok →
          buildVertexModelMethodURL u (vertexProjectFor u sa) (extractVertexLocation u)
            testModel "generateContent" = Except.ok reqURL →
          ((∀ st body, probe reqURL = HTTPResult.response st body → ¬(200 ≤ st ∧ st < 300) →
             validateKey cp exchange probe now (some u) testModel cache apiKeyID keyValue =
               ⟨false, some ("[status " ++ toString st ++ "] " ++ parseUpstreamError body),
                 (getOrMintAccessToken cp exchange now cache apiKeyID sa).calls + 1,
                 (getOrMintAccessToken cp exchange now cache apiKeyID sa).cache⟩) ∧
           (∀ msg, probe reqURL = HTTPResult.failure msg →
             validateKey cp exchange probe now (some u) testModel cache apiKeyID keyValue =
               ⟨false, some ("failed to send validation request: " ++ msg),
                 (getOrMintAccessToken cp exchange now cache apiKeyID sa).calls + 1,
                 (getOrMintAccessToken cp exchange now cache apiKeyID sa).cache⟩))))) := by
  refine ⟨rfl, ?_, ?_⟩
  · intro e he
    unfold validateKey
    rw [he]
  · intro sa hsa
    refine ⟨?_, ?_, ?_, ?_, ?_⟩
    · intro hproj
      unfold validateKey
      rw [hsa]
      dsimp only []
      rw [if_pos hproj]
    · intro hproj hloc
      unfold validateKey
      rw [hsa]
      dsimp only []
      rw [if_neg hproj, if_pos hloc]
    · by_cases hproj : vertexProjectFor u sa = ""
      · have hv : validateKey cp exchange probe now (some u) testModel cache apiKeyID
            keyValue = ⟨false,
              some "missing project_id (not found in upstream url path or service account json)",
              0, cache⟩ := by
          unfold validateKey
          rw [hsa]
          dsimp only []
          rw [if_pos hproj]
        rw [hv]
        simp [hproj]
      · by_cases hloc : extractVertexLocation u = ""
        · have hv : validateKey cp exchange probe now (some u) testModel cache apiKeyID
              keyValue = ⟨false,
                some "unable to infer vertex location from upstream host/path", 0, cache⟩ := by
            unfold validateKey
            rw [hsa]
            dsimp only []
            rw [if_neg hproj, if_pos hloc]
          rw [hv]
          simp [hloc]
        · cases hm : (getOrMintAccessToken cp exchange now cache apiKeyID sa).result with
          | error e =>
            have hv : validateKey cp exchange probe now (some u) testModel cache apiKeyID
                keyValue = ⟨false, some e,
                  (getOrMintAccessToken cp exchange now cache apiKeyID sa).calls,
                  (getOrMintAccessToken cp exchange now cache apiKeyID sa).cache⟩ := by
              unfold validateKey
              rw [hsa]
              dsimp only []
              rw [if_neg hproj, if_neg hloc, hm]
            rw [hv]
            simp [hm]
          | ok tok =>
            cases hb : buildVertexModelMethodURL u (vertexProjectFor u sa)
                (extractVertexLocation u) testModel "generateContent" with
            | error e =>
              have hv : validateKey cp exchange probe now (some u) testModel cache apiKeyID
                  keyValue = ⟨false, some e,
                    (getOrMintAccessToken cp exchange now cache apiKeyID sa).calls,
                    (getOrMintAccessToken cp exchange now cache apiKeyID sa).cache⟩ := by
                unfold validateKey
                rw [hsa]
                dsimp only []
                rw [if_neg hproj, if_neg hloc, hm]
                dsimp only []
                rw [hb]
              rw [hv]
              simp [hm, hb]
            | ok reqURL =>
              cases hp : probe reqURL with
              | failure msg =>
                have hv : validateKey cp exchange probe now (some u) testModel cache apiKeyID
                    keyValue = ⟨false, some ("failed to send validation request: " ++ msg),
                      (getOrMintAccessToken cp exchange now cache apiKeyID sa).calls + 1,
                      (getOrMintAccessToken cp exchange now cache apiKeyID sa).cache⟩ := by
                  unfold validateKey
                  rw [hsa]
                  dsimp only []
                  rw [if_neg hproj, if_neg hloc, hm]
                  dsimp only []
                  rw [hb]
                  dsimp only []
                  rw [hp]
                rw [hv]
                simp [hm, hb, hp]
              | response st body =>
                by_cases hst : 200 ≤ st ∧ st < 300
                · have hv : validateKey cp exchange probe now (some u) testModel cache
                      apiKeyID keyValue = ⟨true, none,
                        (getOrMintAccessToken cp exchange now cache apiKeyID sa).calls + 1,
                        (getOrMintAccessToken cp exchange now cache apiKeyID sa).cache⟩ := by
                    unfold validateKey
                    rw [hsa]
                    dsimp only []
                    rw [if_neg hproj, if_neg hloc, hm]
                    dsimp only []
                    rw [hb]
                    dsimp only []
                    rw [hp]
                    dsimp only []
                    rw [if_pos hst]
                  rw [hv]
                  constructor
                  · intro _
                    exact ⟨hproj, hloc, tok, reqURL, st, body, rfl, rfl, hp, hst.1, hst.2⟩
                  · intro _
                    rfl
                · have hv : validateKey cp exchange probe now (some u) testModel cache
                      apiKeyID keyValue = ⟨false,
                        some ("[status " ++ toString st ++ "] " ++ parseUpstreamError body),
                        (getOrMintAccessToken cp exchange now cache apiKeyID sa).calls + 1,
                        (getOrMintAccessToken cp exchange now cache apiKeyID sa).cache⟩ := by
                    unfold validateKey
                    rw [hsa]
                    dsimp only []
                    rw [if_neg hproj, if_neg hloc, hm]
                    dsimp only []
                    rw [hb]
                    dsimp only []
                    rw [hp]
                    dsimp only []
                    rw [if_neg hst]
                  rw [hv]
                  constructor
                  · intro hcontra
                    exact absurd hcontra (by simp)
                  · intro hcontra
                    obtain ⟨_, _, tok2, reqURL2, st2, body2, hm2, hb2, hp2, hst2a, hst2b⟩ :=
                      hcontra
                    have hrq : reqURL2 = reqURL := ((Except.ok.injEq _ _).mp hb2).symm
                    rw [hrq, hp] at hp2
                    have hst2 : st = st2 := ((HTTPResult.response.injEq _ _ _ _).mp hp2).1
                    rw [← hst2] at hst2a hst2b
                    exact absurd ⟨hst2a, hst2b⟩ hst
    · intro hproj hloc tok e hm hb
      unfold validateKey
      rw [hsa]
      dsimp only []
      rw [if_neg hproj, if_neg hloc, hm]
      dsimp only []
      rw [hb]
    · intro hproj hloc tok reqURL hm hb
      constructor
      · intro st body hp hst
        unfold validateKey
        rw [hsa]
        dsimp only []
        rw [if_neg hproj, if_neg hloc, hm]
        dsimp only []
        rw [hb]
        dsimp only []
        rw [hp]
        dsimp only []
        rw [if_neg hst]
      · intro msg hp
        unfold validateKey
        rw [hsa]
        dsimp only []
        rw [if_neg hproj, if_neg hloc, hm]
        dsimp only []
        rw [hb]
        dsimp only []
        rw [hp]

/-- C6 witness: with a secret lacking a project id and an upstream URL
whose path has none, validation fails locally with the project-inference
error and zero network calls; and with a complete secret but a probe
answering 401 `denied`, validation fails carrying the parsed upstream
error `[status 401] denied`. -/
theorem c6_validate_key_probe_and_local_errors_witness :
    validateKey cpOk exchange200s30 probe200 0 (some upstreamEx) "m" emptyCache 1
        saJSONNoProj =
      ⟨false, some "missing project_id (not found in upstream url path or service account json)",
        0, emptyCache⟩ ∧
      (validateKey cpOk exchange200s30 probe401 0 (some upstreamEx) "m" emptyCache 1
        saJSONEx).err = some "[status 401] denied" := by
  constructor
  · exact ((c6_validate_key_probe_and_local_errors cpOk exchange200s30 probe200 0
      upstreamEx "m" emptyCache 1 saJSONNoProj).2.2
      ⟨"", "", "PEMKEY", "a@b", ""⟩ rfl).1 rfl
  · have h := (((c6_validate_key_probe_and_local_errors cpOk exchange200s30 probe401 0
      upstreamEx "m" emptyCache 1 saJSONEx).2.2
      ⟨"proj1", "", "PEMKEY", "a@b", ""⟩ rfl).2.2.2.2 (by decide) (by decide) "t"
      "https://us-central1-aiplatform.googleapis.com/v1/projects/proj1/locations/us-central1/publishers/google/models/m:generateContent"
      rfl rfl).1 401 "denied" rfl (by decide)
    rw [h]
    rfl

end GptLoad
